import Mathlib

/-!
# Verification of the BI spreadsheet-reconciliation importer

Shallow embedding of the conversion engine in `BI系統整合資料匯入工具.py`
(`BIIntegratedDataConverter`), covering

* the date normalizer `convert_datetime_optimized`,
* the batch loader `insert_data_in_chunks`,
* the customer / inventory column reconcilers
  (`convert_customer_data`, the last definition of `convert_inventory_inquiry_data`),
* the dedup resolver shared by `convert_sales_data`, `convert_repair_data`
  and `convert_custody_data` (sort by document number with name-completeness
  tie-break, then `drop_duplicates(subset=["單據編號"])`),
* the procurement upsert engine (the last definition of
  `convert_procuretrack_data`, lines 1727-1889).

Modelling conventions:

* Spreadsheet cells are modelled by `BI.Cell`; numeric cells are modelled as
  integers (the behaviours under scrutiny only depend on integral day serials
  and quantities).
* pandas' best-effort parser `pd.to_datetime(s, errors="coerce")` with no
  explicit format is modelled as an arbitrary function
  `guess : String → Option BI.Ts`; all theorems either hold for every such
  function or constrain it only at the concrete strings involved.
* SQLite tables are modelled as Lean lists of records; a dropped /
  nonexistent table is `Option.none`.
-/

set_option maxHeartbeats 1000000
set_option maxRecDepth 8000

namespace BI

/-! ## Calendar arithmetic

`civilFromDays`/`daysFromCivil` convert between a count of days relative to
1970-01-01 and a proleptic-Gregorian calendar date, following the standard
era-based algorithm.  All quantities arising from the dates handled by the
importer keep every intermediate value nonnegative, where `Int` division
agrees with mathematical floor division. -/

/-- Days since 1970-01-01 to `(year, month, day)`. -/
def civilFromDays (z : Int) : Int × Nat × Nat :=
  let z' := z + 719468
  let era : Int := (if 0 ≤ z' then z' else z' - 146096) / 146097
  let doe : Int := z' - era * 146097
  let yoe : Int := (doe - doe / 1460 + doe / 36524 - doe / 146096) / 365
  let y : Int := yoe + era * 400
  let doy : Int := doe - (365 * yoe + yoe / 4 - yoe / 100)
  let mp : Int := (5 * doy + 2) / 153
  let d : Int := doy - (153 * mp + 2) / 5 + 1
  let m : Int := if mp < 10 then mp + 3 else mp - 9
  (if m ≤ 2 then y + 1 else y, m.toNat, d.toNat)

/-- `(year, month, day)` to days since 1970-01-01. -/
def daysFromCivil (y : Int) (m d : Nat) : Int :=
  let y' := if m ≤ 2 then y - 1 else y
  let era : Int := (if 0 ≤ y' then y' else y' - 399) / 400
  let yoe : Int := y' - era * 400
  let mp : Int := if 2 < m then (m : Int) - 3 else (m : Int) + 9
  let doy : Int := (153 * mp + 2) / 5 + (d : Int) - 1
  let doe : Int := yoe * 365 + yoe / 4 - yoe / 100 + doy
  era * 146097 + doe - 719468

/-- A pandas `Timestamp`, as far as the importer observes it: a calendar day
(days since 1970-01-01) and a second-of-day. -/
structure Ts where
  days : Int
  secs : Nat
deriving Repr, DecidableEq

def pad2 (n : Nat) : String :=
  if n < 10 then "0" ++ toString n else toString n

def pad4 (y : Int) : String :=
  if y < 10 then "000" ++ toString y
  else if y < 100 then "00" ++ toString y
  else if y < 1000 then "0" ++ toString y
  else toString y

/-- `Timestamp.strftime("%Y-%m-%d %H:%M:%S")`. -/
def formatTs (t : Ts) : String :=
  let c := civilFromDays t.days
  pad4 c.1 ++ "-" ++ pad2 c.2.1 ++ "-" ++ pad2 c.2.2 ++ " " ++
    pad2 (t.secs / 3600) ++ ":" ++ pad2 (t.secs % 3600 / 60) ++ ":" ++ pad2 (t.secs % 60)

/-- `Timestamp.date().isoformat()`. -/
def isoDate (t : Ts) : String :=
  let c := civilFromDays t.days
  pad4 c.1 ++ "-" ++ pad2 c.2.1 ++ "-" ++ pad2 c.2.2

/-- `pd.to_datetime(v, origin="1899-12-30", unit="D", errors="coerce")` on an
integral day serial `v`.  1899-12-30 is day `-25569` relative to 1970-01-01;
a result farther than 106751 days from 1970-01-01 overflows the 64-bit
nanosecond `Timestamp` range and coerces to `NaT` (`none`). -/
def serialToTs (v : Int) : Option Ts :=
  if 25569 - 106751 ≤ v ∧ v ≤ 25569 + 106751 then some ⟨v - 25569, 0⟩ else none

end BI

namespace BI

/-! ## Cells and Python string coercions -/

/-- A spreadsheet cell as accessed through `row.get(col)` on a pandas row:
a text cell, a numeric cell (modelled integral), a `NaN` cell of a present
column, or an absent column (Python `None`). -/
inductive Cell where
  | str (s : String)
  | num (n : Int)
  | nan
  | missing
deriving Repr, DecidableEq

/-- `str(x)` on a cell value. -/
def cellText : Cell → String
  | .str s => s
  | .num n => toString n
  | .nan => "nan"
  | .missing => "None"

/-- `str(row.get(col) or "")`: Python `or` takes the right operand exactly
when the cell value is falsy (`None`, `""`, `0`); note that `NaN` is truthy
and stringifies to `"nan"`. -/
def pyOrEmpty : Cell → String
  | .missing => ""
  | .nan => "nan"
  | .str s => if s = "" then "" else s
  | .num n => if n = 0 then "" else toString n

/-- Python `str.strip()`: drop leading and trailing whitespace. -/
def pyStrip (s : String) : String :=
  (((s.toList.dropWhile Char.isWhitespace).reverse.dropWhile Char.isWhitespace).reverse).asString

/-- `str(row.get(col) or "").strip()`. -/
def getStrField (c : Cell) : String := pyStrip (pyOrEmpty c)

def digitsVal? (cs : List Char) : Option Nat :=
  if cs ≠ [] ∧ cs.all Char.isDigit then
    some (cs.foldl (fun n c => n * 10 + (c.toNat - 48)) 0)
  else none

/-- Python `int(s)` on a string: optional sign and decimal digits, anything
else raises `ValueError` (`none`). -/
def pyInt? (s : String) : Option Int :=
  match (pyStrip s).toList with
  | '-' :: rest => (digitsVal? rest).map (fun n => -(n : Int))
  | '+' :: rest => (digitsVal? rest).map Int.ofNat
  | rest => (digitsVal? rest).map Int.ofNat

/-- `int(raw) if pd.notna(raw) else 0` with `ValueError`/`TypeError`
falling back to 0, as in the quantity extraction of the procurement upsert. -/
def cellToQty : Cell → Int
  | .num n => n
  | .str s => (pyInt? s).getD 0
  | .nan => 0
  | .missing => 0

end BI

namespace BI

/-! ## Parenthetical stripping (`re.sub(r"\([^)]*\)", "", s)`) -/

/-- Drop characters up to and including the first `')'`; `none` if there is
no `')'` (the regex `\([^)]*\)` then has no match starting at the `'('`). -/
def afterCloseParen : List Char → Option (List Char)
  | [] => none
  | c :: rest => if c = ')' then some rest else afterCloseParen rest

theorem afterCloseParen_length {l r : List Char} (h : afterCloseParen l = some r) :
    r.length < l.length := by
  induction l with
  | nil => simp [afterCloseParen] at h
  | cons c rest ih =>
    by_cases hc : c = ')'
    · rw [afterCloseParen, if_pos hc] at h
      cases h
      simp only [List.length_cons]
      omega
    · rw [afterCloseParen, if_neg hc] at h
      have := ih h
      simp only [List.length_cons]
      omega

/-- `re.sub(r"\([^)]*\)", "", ·)` on the character list: each leftmost
match runs from a `'('` to the first following `')'`.  The recursion is
driven by a fuel argument so that the kernel can evaluate it; by
`afterCloseParen_length` every step strictly shrinks the list, so a fuel of
`l.length` never runs out. -/
def stripParensFuel : Nat → List Char → List Char
  | _, [] => []
  | 0, l => l
  | fuel + 1, c :: rest =>
    if c = '(' then
      match afterCloseParen rest with
      | some rest' => stripParensFuel fuel rest'
      | none => c :: stripParensFuel fuel rest
    else c :: stripParensFuel fuel rest

def stripParensList (l : List Char) : List Char := stripParensFuel l.length l

def stripParens (s : String) : String := (stripParensList s.toList).asString

end BI

namespace Procure

open BI

/-! ## Incremental Upsert Engine (`convert_procuretrack_data`, lines 1727-1889)

The persistent store `procure.db` table `procure_items`.  A record carries the
columns of the importer's `CREATE TABLE` statement plus `extra`, the columns an
installation may own beyond that schema (for example `remarks`, added by the
ProcureTrack web application); the importer's UPDATE and INSERT statements
never name such columns, and an INSERT leaves them at SQL `NULL`
(modelled as an empty `extra` list). -/

structure Record where
  id : Nat
  po_number : String
  item_serial_number : String
  product_code : String
  product_name : String
  quantity : Int
  warehouse_qty : Int
  delivery_date : String
  dispatch_date : String
  warehouse : String
  arrival_date : String
  ship_info : String
  status : String
  goods_status : String
  extra : List (String × String)
deriving Repr, DecidableEq

/-- The `procure_items` table plus the `AUTOINCREMENT` cursor. -/
structure Store where
  nextId : Nat
  rows : List Record
deriving Repr, DecidableEq

/-- One Excel row of 採購狀況明細表.xlsx, restricted to the cells the upsert
reads via `row.get`; field names romanize the source headers:
`docNo` 單據編號, `serialNo` 序號, `productCode` 產品代碼,
`productName` 產品名稱, `txnQty` 交易數量, `whQty` 倉庫確認數量,
`warehouseCell` 倉庫, `deliveryCell` 交貨日期, `statusCell` 狀態. -/
structure ImportRow where
  docNo : Cell
  serialNo : Cell
  productCode : Cell
  productName : Cell
  txnQty : Cell
  whQty : Cell
  warehouseCell : Cell
  deliveryCell : Cell
  statusCell : Cell
deriving Repr, DecidableEq

structure Tally where
  inserted : Nat
  updated : Nat
  skipped : Nat
  errored : Nat
deriving Repr, DecidableEq

def Tally.zero : Tally := ⟨0, 0, 0, 0⟩

/-- `_normalize_delivery`: `NaN`/`None` become `""`; otherwise the value is
stringified, stripped, parenthetical annotations are removed, and a
best-effort parse yields an ISO calendar date, the stripped text surviving
when the parse fails. -/
def normalizeDelivery (guess : String → Option Ts) (c : Cell) : String :=
  match c with
  | .nan => ""
  | .missing => ""
  | c =>
    let s := pyStrip (cellText c)
    if s = "" then ""
    else
      let s2 := pyStrip (stripParens s)
      match guess s2 with
      | some t => isoDate t
      | none => s2

/-- `SELECT id FROM procure_items WHERE po_number = ? AND item_serial_number = ?`
followed by `fetchone()`. -/
def findByKey (po serial : String) (rows : List Record) : Option Record :=
  rows.find? (fun r => r.po_number == po && r.item_serial_number == serial)

/-- The UPDATE statement: by record id, writing exactly the authoritative
columns `product_code, product_name, quantity, warehouse_qty, delivery_date,
warehouse, status`. -/
def updateAuth (rid : Nat) (pc pn : String) (q wq : Int) (dd wh st : String)
    (r : Record) : Record :=
  if r.id = rid then
    { r with product_code := pc, product_name := pn, quantity := q,
             warehouse_qty := wq, delivery_date := dd, warehouse := wh,
             status := st }
  else r

/-- The body of the per-row loop of `convert_procuretrack_data`. -/
def upsertStep (guess : String → Option Ts) (acc : Store × Tally) (row : ImportRow) :
    Store × Tally :=
  let store := acc.1
  let tally := acc.2
  let po := getStrField row.docNo
  let serial := getStrField row.serialNo
  if po = "" ∨ serial = "" then
    (store, { tally with skipped := tally.skipped + 1 })
  else
    let product_code := getStrField row.productCode
    let product_name := getStrField row.productName
    let quantity := cellToQty row.txnQty
    let warehouse_qty := cellToQty row.whQty
    let warehouse_name := getStrField row.warehouseCell
    let delivery_date := normalizeDelivery guess row.deliveryCell
    let status_val := getStrField row.statusCell
    match findByKey po serial store.rows with
    | some r =>
        ({ store with
            rows := store.rows.map
              (updateAuth r.id product_code product_name quantity warehouse_qty
                delivery_date warehouse_name status_val) },
         { tally with updated := tally.updated + 1 })
    | none =>
        ({ nextId := store.nextId + 1,
           rows := store.rows ++
             [{ id := store.nextId, po_number := po, item_serial_number := serial,
                product_code := product_code, product_name := product_name,
                quantity := quantity, warehouse_qty := warehouse_qty,
                delivery_date := delivery_date, dispatch_date := "",
                warehouse := warehouse_name, arrival_date := "", ship_info := "",
                status := status_val, goods_status := "", extra := [] }] },
         { tally with inserted := tally.inserted + 1 })

/-- The whole per-row loop over the imported frame. -/
def runUpsert (guess : String → Option Ts) (rows : List ImportRow) (store : Store) :
    Store × Tally :=
  rows.foldl (upsertStep guess) (store, Tally.zero)

/-- Columns of the importer's `CREATE TABLE IF NOT EXISTS procure_items`. -/
def createTableColumns : List String :=
  ["id", "po_number", "item_serial_number", "product_code", "product_name",
   "quantity", "warehouse_qty", "delivery_date", "dispatch_date", "warehouse",
   "arrival_date", "ship_info", "status", "goods_status"]

/-- The schema-evolution block: membership is tested against the snapshot of
`PRAGMA table_info` taken before any `ALTER TABLE`, and each missing column in
this fixed list is appended `AS TEXT`. -/
def schemaEvolveAdds : List String :=
  ["item_serial_number", "goods_status", "product_code", "warehouse_qty",
   "warehouse", "dispatch_date"]

def addIfMissing (snapshot table : List String) (c : String) : List String :=
  if c ∈ snapshot then table else table ++ [c]

def schemaEvolve (cols : List String) : List String :=
  schemaEvolveAdds.foldl (addIfMissing cols) cols

/-- Result of one call of `convert_procuretrack_data`: returned flag, the
on-disk table schema and store, and the run tally (reported only when the
per-row loop actually ran).  `db = none` models a missing `procure.db`. -/
def convert_procuretrack_data (guess : String → Option Ts) (fileOk : Bool)
    (excelCols : List String) (rows : List ImportRow)
    (db : Option (List String × Store)) :
    Bool × Option (List String × Store) × Option Tally :=
  if !fileOk then (false, db, none)
  else if "序號" ∉ excelCols then (false, db, none)
  else
    let tableCols := (db.map Prod.fst).getD createTableColumns
    let store := (db.map Prod.snd).getD { nextId := 1, rows := [] }
    let tableCols := schemaEvolve tableCols
    let res := runUpsert guess rows store
    (true, some (tableCols, res.1), some res.2)

end Procure

namespace Procure

open BI

/-! ## Frame properties of the upsert (claims C1-C3) -/

/-- The record fields that are outside the UPDATE statement's SET list: the
row id, the key columns, the operator columns `dispatch_date`, `arrival_date`,
`ship_info`, `goods_status`, and every extra column (such as `remarks`). -/
def frameFields (r : Record) :
    Nat × String × String × String × String × String × String × List (String × String) :=
  (r.id, r.po_number, r.item_serial_number,
   r.dispatch_date, r.arrival_date, r.ship_info, r.goods_status, r.extra)

/-- `b` is `a` with at most the authoritative columns rewritten. -/
def agrees (a b : Record) : Prop := frameFields b = frameFields a

theorem agrees_refl (a : Record) : agrees a a := rfl

theorem agrees_trans {a b c : Record} (h1 : agrees a b) (h2 : agrees b c) :
    agrees a c := by
  unfold agrees at *
  rw [h2, h1]

theorem forall₂_agrees_trans :
    ∀ {as bs cs : List Record}, List.Forall₂ agrees as bs →
      List.Forall₂ agrees bs cs → List.Forall₂ agrees as cs
  | [], [], [], _, _ => List.Forall₂.nil
  | _ :: _, _ :: _, _ :: _, .cons h1 t1, .cons h2 t2 =>
      .cons (agrees_trans h1 h2) (forall₂_agrees_trans t1 t2)

/-- The original rows survive, in place and in order, with only authoritative
columns possibly rewritten; new rows may only be appended after them. -/
def Pres (xs ys : List Record) : Prop :=
  xs.length ≤ ys.length ∧ List.Forall₂ agrees xs (ys.take xs.length)

theorem pres_refl (xs : List Record) : Pres xs xs := by
  refine ⟨le_refl _, ?_⟩
  rw [List.take_length]
  exact List.forall₂_same.2 (fun x _ => agrees_refl x)

theorem pres_trans {xs ys zs : List Record} (h1 : Pres xs ys) (h2 : Pres ys zs) :
    Pres xs zs := by
  refine ⟨le_trans h1.1 h2.1, ?_⟩
  have htk := List.forall₂_take xs.length h2.2
  rw [List.take_take, min_eq_left h1.1] at htk
  exact forall₂_agrees_trans h1.2 htk

theorem pres_map {ys : List Record} {f : Record → Record}
    (hf : ∀ r, agrees r (f r)) : Pres ys (ys.map f) := by
  refine ⟨le_of_eq (List.length_map ys f).symm, ?_⟩
  rw [List.take_of_length_le (le_of_eq (List.length_map ys f))]
  exact List.forall₂_map_right_iff.2 (List.forall₂_same.2 (fun x _ => hf x))

theorem pres_append (ys l : List Record) : Pres ys (ys ++ l) := by
  refine ⟨by simp, ?_⟩
  rw [List.take_left]
  exact List.forall₂_same.2 (fun x _ => agrees_refl x)

theorem updateAuth_agrees (rid : Nat) (pc pn : String) (q wq : Int)
    (dd wh st : String) (r : Record) :
    agrees r (updateAuth rid pc pn q wq dd wh st r) := by
  unfold agrees updateAuth frameFields
  split <;> rfl

theorem upsertStep_pres (guess : String → Option Ts) (acc : Store × Tally)
    (row : ImportRow) : Pres acc.1.rows ((upsertStep guess acc row).1).rows := by
  simp only [upsertStep]
  split
  · exact pres_refl _
  · split
    · exact pres_map (updateAuth_agrees _ _ _ _ _ _ _ _)
    · exact pres_append _ _

theorem foldl_upsert_pres (guess : String → Option Ts) :
    ∀ (imports : List ImportRow) (acc : Store × Tally),
      Pres acc.1.rows ((imports.foldl (upsertStep guess) acc).1).rows
  | [], _ => pres_refl _
  | row :: rest, acc => by
      rw [List.foldl_cons]
      exact pres_trans (upsertStep_pres guess acc row)
        (foldl_upsert_pres guess rest (upsertStep guess acc row))

/-- **C1.** A procurement upsert run never removes or reorders the records
that were in `procure_items` before the run, and on each of them it can only
rewrite the authoritative columns (`product_code`, `product_name`,
`quantity`, `warehouse_qty`, `delivery_date`, `warehouse`, `status`): the id,
the key columns, the operator columns `dispatch_date`, `arrival_date`,
`ship_info`, `goods_status` and every extra column such as `remarks` are
bit-for-bit unchanged after the run — the UPDATE statement simply never
names them. -/
theorem procure_run_touches_only_authoritative_fields
    (guess : String → Option Ts) (imports : List ImportRow) (s : Store) :
    s.rows.length ≤ ((runUpsert guess imports s).1).rows.length ∧
    List.Forall₂ agrees s.rows (((runUpsert guess imports s).1).rows.take s.rows.length) :=
  foldl_upsert_pres guess imports (s, Tally.zero)

end Procure

namespace Procure

open BI

/-! ## Insert behaviour (claim C2) -/

/-- **C2.** On an import row whose stripped 單據編號 and 序號 are both
non-empty and whose key is absent from `procure_items`, the upsert step
appends exactly one record: its authoritative columns come from the import
row (through the source's own normalizations) and its operator columns
`dispatch_date`, `arrival_date`, `ship_info`, `goods_status` are all
initialized to the empty string. -/
theorem procure_insert_new_key (guess : String → Option Ts) (s : Store) (t : Tally)
    (row : ImportRow)
    (hpo : getStrField row.docNo ≠ "")
    (hserial : getStrField row.serialNo ≠ "")
    (hnew : findByKey (getStrField row.docNo) (getStrField row.serialNo) s.rows = none) :
    ∃ rec : Record,
      ((upsertStep guess (s, t) row).1).rows = s.rows ++ [rec] ∧
      (upsertStep guess (s, t) row).2 = { t with inserted := t.inserted + 1 } ∧
      rec.po_number = getStrField row.docNo ∧
      rec.item_serial_number = getStrField row.serialNo ∧
      rec.product_code = getStrField row.productCode ∧
      rec.product_name = getStrField row.productName ∧
      rec.quantity = cellToQty row.txnQty ∧
      rec.warehouse_qty = cellToQty row.whQty ∧
      rec.delivery_date = normalizeDelivery guess row.deliveryCell ∧
      rec.warehouse = getStrField row.warehouseCell ∧
      rec.status = getStrField row.statusCell ∧
      rec.dispatch_date = "" ∧ rec.arrival_date = "" ∧
      rec.ship_info = "" ∧ rec.goods_status = "" := by
  have hcond : ¬(getStrField row.docNo = "" ∨ getStrField row.serialNo = "") := by
    push_neg
    exact ⟨hpo, hserial⟩
  have hstep : upsertStep guess (s, t) row =
      ({ nextId := s.nextId + 1,
         rows := s.rows ++
           [{ id := s.nextId, po_number := getStrField row.docNo,
              item_serial_number := getStrField row.serialNo,
              product_code := getStrField row.productCode,
              product_name := getStrField row.productName,
              quantity := cellToQty row.txnQty,
              warehouse_qty := cellToQty row.whQty,
              delivery_date := normalizeDelivery guess row.deliveryCell,
              dispatch_date := "", warehouse := getStrField row.warehouseCell,
              arrival_date := "", ship_info := "",
              status := getStrField row.statusCell, goods_status := "", extra := [] }] },
       { t with inserted := t.inserted + 1 }) := by
    simp only [upsertStep, if_neg hcond, hnew]
  rw [hstep]
  exact ⟨_, rfl, rfl, rfl, rfl, rfl, rfl, rfl, rfl, rfl, rfl, rfl, rfl, rfl, rfl, rfl⟩

/-- A concrete instantiation of the best-effort parser, usable for closed
instances whose evaluation never reaches the parser or reaches it only on
strings that genuinely fail to parse. -/
def guessNone : String → Option Ts := fun _ => none

def sampleRow : ImportRow :=
  ⟨.str "PO1", .str "1", .str "P-001", .str "Widget", .num 10, .num 0,
   .str "W1", .missing, .str "生產中"⟩

def emptyStore : Store := ⟨1, []⟩

theorem procure_insert_new_key_witness :
    (getStrField sampleRow.docNo ≠ "" ∧ getStrField sampleRow.serialNo ≠ "" ∧
      findByKey (getStrField sampleRow.docNo) (getStrField sampleRow.serialNo)
        emptyStore.rows = none) ∧
    (∃ rec : Record,
      ((upsertStep guessNone (emptyStore, Tally.zero) sampleRow).1).rows =
        emptyStore.rows ++ [rec] ∧
      (upsertStep guessNone (emptyStore, Tally.zero) sampleRow).2 =
        { Tally.zero with inserted := Tally.zero.inserted + 1 } ∧
      rec.po_number = getStrField sampleRow.docNo ∧
      rec.item_serial_number = getStrField sampleRow.serialNo ∧
      rec.product_code = getStrField sampleRow.productCode ∧
      rec.product_name = getStrField sampleRow.productName ∧
      rec.quantity = cellToQty sampleRow.txnQty ∧
      rec.warehouse_qty = cellToQty sampleRow.whQty ∧
      rec.delivery_date = normalizeDelivery guessNone sampleRow.deliveryCell ∧
      rec.warehouse = getStrField sampleRow.warehouseCell ∧
      rec.status = getStrField sampleRow.statusCell ∧
      rec.dispatch_date = "" ∧ rec.arrival_date = "" ∧
      rec.ship_info = "" ∧ rec.goods_status = "") :=
  ⟨⟨by decide, by decide, rfl⟩,
   procure_insert_new_key guessNone emptyStore Tally.zero sampleRow
     (by decide) (by decide) rfl⟩

/-! ## Schema evolution (claim C8) -/

theorem foldl_addIfMissing_spec (snapshot : List String) :
    ∀ (adds tbl : List String),
      ∃ added, adds.foldl (addIfMissing snapshot) tbl = tbl ++ added ∧
        ∀ c ∈ added, c ∈ adds
  | [], tbl => ⟨[], (List.append_nil tbl).symm, fun c hc => absurd hc (List.not_mem_nil c)⟩
  | a :: rest, tbl => by
      rw [List.foldl_cons]
      by_cases hmem : a ∈ snapshot
      · rw [show addIfMissing snapshot tbl a = tbl from if_pos hmem]
        obtain ⟨added, heq, hsub⟩ := foldl_addIfMissing_spec snapshot rest tbl
        exact ⟨added, heq, fun c hc => List.mem_cons_of_mem a (hsub c hc)⟩
      · rw [show addIfMissing snapshot tbl a = tbl ++ [a] from if_neg hmem]
        obtain ⟨added, heq, hsub⟩ := foldl_addIfMissing_spec snapshot rest (tbl ++ [a])
        refine ⟨a :: added, ?_, ?_⟩
        · rw [heq, List.append_assoc]
          rfl
        · intro c hc
          rcases List.mem_cons.1 hc with h | h
          · exact h ▸ List.mem_cons_self a rest
          · exact List.mem_cons_of_mem a (hsub c h)

theorem foldl_addIfMissing_mem (snapshot : List String) :
    ∀ (adds tbl : List String), ∀ c ∈ tbl, c ∈ adds.foldl (addIfMissing snapshot) tbl := by
  intro adds tbl c hc
  obtain ⟨added, heq, _⟩ := foldl_addIfMissing_spec snapshot adds tbl
  rw [heq]
  exact List.mem_append_left _ hc

theorem foldl_addIfMissing_adds_mem (snapshot : List String) :
    ∀ (adds tbl : List String),
      (∀ c ∈ adds, c ∈ snapshot → c ∈ tbl) →
      ∀ c ∈ adds, c ∈ adds.foldl (addIfMissing snapshot) tbl := by
  intro adds
  induction adds with
  | nil => intro tbl _ c hc; simp at hc
  | cons a rest ih =>
    intro tbl hinv c hc
    rw [List.foldl_cons]
    rcases List.mem_cons.1 hc with rfl | hcr
    · by_cases hmem : c ∈ snapshot
      · rw [show addIfMissing snapshot tbl c = tbl from if_pos hmem]
        exact foldl_addIfMissing_mem snapshot rest tbl c
          (hinv c (List.mem_cons_self c rest) hmem)
      · rw [show addIfMissing snapshot tbl c = tbl ++ [c] from if_neg hmem]
        exact foldl_addIfMissing_mem snapshot rest (tbl ++ [c]) c
          (List.mem_append_right _ (List.mem_singleton.2 rfl))
    · by_cases hmem : a ∈ snapshot
      · rw [show addIfMissing snapshot tbl a = tbl from if_pos hmem]
        exact ih tbl (fun d hd hds => hinv d (List.mem_cons_of_mem a hd) hds) c hcr
      · rw [show addIfMissing snapshot tbl a = tbl ++ [a] from if_neg hmem]
        exact ih (tbl ++ [a])
          (fun d hd hds => List.mem_append_left _ (hinv d (List.mem_cons_of_mem a hd) hds))
          c hcr

/-- **C8 (amended).** The schema-evolution block keeps every existing column
of `procure_items` in place (no drop, no rename: the original column list is
a prefix of the evolved one) and appends, as TEXT columns, exactly the
missing columns among `item_serial_number`, `goods_status`, `product_code`,
`warehouse_qty`, `warehouse` and `dispatch_date`; missing authoritative or
operator columns outside this fixed list — `product_name`, `quantity`,
`delivery_date`, `status`, `arrival_date`, `ship_info`, `remarks` — are not
added. -/
theorem procure_schema_evolution_exact (cols : List String) :
    (∃ added, schemaEvolve cols = cols ++ added ∧ ∀ c ∈ added, c ∈ schemaEvolveAdds) ∧
    (∀ c ∈ schemaEvolveAdds, c ∈ schemaEvolve cols) ∧
    (∀ c ∈ cols, c ∈ schemaEvolve cols) := by
  refine ⟨foldl_addIfMissing_spec cols schemaEvolveAdds cols, ?_, ?_⟩
  · exact foldl_addIfMissing_adds_mem cols schemaEvolveAdds cols (fun c _ hc => hc)
  · exact foldl_addIfMissing_mem cols schemaEvolveAdds cols

/-- `procure_items` columns of an older installation that lacks
`arrival_date` (and has no `remarks` column). -/
def legacyCols : List String :=
  ["id", "po_number", "item_serial_number", "product_code", "product_name",
   "quantity", "warehouse_qty", "delivery_date", "dispatch_date", "warehouse",
   "ship_info", "status", "goods_status"]

/-- **C8 (counterexample).** The claim says every missing authoritative or
operator column — including `arrival_date` and `remarks` — is added before
processing; on a table missing `arrival_date` and `remarks` the evolution
step adds neither. -/
theorem procure_schema_evolution_counterexample :
    "arrival_date" ∉ schemaEvolve legacyCols ∧ "remarks" ∉ schemaEvolve legacyCols := by
  decide

theorem procure_schema_evolution_exact_witness :
    "item_serial_number" ∈ schemaEvolveAdds ∧ "item_serial_number" ∈ schemaEvolve legacyCols :=
  ⟨by decide, (procure_schema_evolution_exact legacyCols).2.1 "item_serial_number" (by decide)⟩

/-! ## Missing 序號 column aborts the import before the store is touched
(claim C10) -/

/-- **C10.** When 採購狀況明細表.xlsx is present but has no 序號 column,
`convert_procuretrack_data` returns `False` before connecting to
`procure.db`: the store (schema and rows alike) is returned unchanged and no
inserted/updated/skipped/errored tally is produced. -/
theorem procure_missing_serial_aborts (guess : String → Option Ts)
    (excelCols : List String) (rows : List ImportRow)
    (db : Option (List String × Store))
    (h : "序號" ∉ excelCols) :
    convert_procuretrack_data guess true excelCols rows db = (false, db, none) := by
  simp only [convert_procuretrack_data, Bool.not_true, Bool.false_eq_true, if_false,
    if_pos h]

theorem procure_missing_serial_aborts_witness :
    ("序號" ∉ ["單據編號", "產品代碼"]) ∧
    convert_procuretrack_data guessNone true ["單據編號", "產品代碼"] [sampleRow]
      (some (legacyCols, emptyStore)) = (false, some (legacyCols, emptyStore), none) :=
  ⟨by decide,
   procure_missing_serial_aborts guessNone ["單據編號", "產品代碼"] [sampleRow]
     (some (legacyCols, emptyStore)) (by decide)⟩

end Procure

namespace Procure

open BI

/-! ## Idempotence of the upsert run (claim C3) -/

/-- The operator-owned state of a record: the operator columns
`dispatch_date`, `arrival_date`, `ship_info`, `goods_status` and all extra
columns such as `remarks`. -/
def opFields (r : Record) : String × String × String × String × List (String × String) :=
  (r.dispatch_date, r.arrival_date, r.ship_info, r.goods_status, r.extra)

def opAgrees (a b : Record) : Prop := opFields b = opFields a

theorem opAgrees_refl (a : Record) : opAgrees a a := rfl

theorem opAgrees_trans {a b c : Record} (h1 : opAgrees a b) (h2 : opAgrees b c) :
    opAgrees a c := by
  unfold opAgrees at *
  rw [h2, h1]

theorem forall₂_opAgrees_trans :
    ∀ {as bs cs : List Record}, List.Forall₂ opAgrees as bs →
      List.Forall₂ opAgrees bs cs → List.Forall₂ opAgrees as cs
  | [], [], [], _, _ => .nil
  | _ :: _, _ :: _, _ :: _, .cons h1 t1, .cons h2 t2 =>
      .cons (opAgrees_trans h1 h2) (forall₂_opAgrees_trans t1 t2)

/-- The key `(po_number, item_serial_number)` occurs in the table. -/
def keyPresentIn (rows : List Record) (po serial : String) : Prop :=
  ∃ r ∈ rows, r.po_number = po ∧ r.item_serial_number = serial

/-- The import row's stripped 單據編號 and 序號 are both non-empty. -/
def validKey (row : ImportRow) : Prop :=
  getStrField row.docNo ≠ "" ∧ getStrField row.serialNo ≠ ""

theorem updateAuth_po (rid : Nat) (pc pn : String) (q wq : Int) (dd wh st : String)
    (r : Record) : (updateAuth rid pc pn q wq dd wh st r).po_number = r.po_number := by
  unfold updateAuth
  split <;> rfl

theorem updateAuth_serial (rid : Nat) (pc pn : String) (q wq : Int) (dd wh st : String)
    (r : Record) :
    (updateAuth rid pc pn q wq dd wh st r).item_serial_number = r.item_serial_number := by
  unfold updateAuth
  split <;> rfl

theorem updateAuth_opAgrees (rid : Nat) (pc pn : String) (q wq : Int) (dd wh st : String)
    (r : Record) : opAgrees r (updateAuth rid pc pn q wq dd wh st r) := by
  unfold opAgrees updateAuth opFields
  split <;> rfl

theorem findByKey_isSome_iff (po serial : String) (rows : List Record) :
    (findByKey po serial rows).isSome ↔ keyPresentIn rows po serial := by
  unfold findByKey keyPresentIn
  rw [List.find?_isSome]
  constructor
  · rintro ⟨r, hr, hp⟩
    rw [Bool.and_eq_true, beq_iff_eq, beq_iff_eq] at hp
    exact ⟨r, hr, hp.1, hp.2⟩
  · rintro ⟨r, hr, h1, h2⟩
    refine ⟨r, hr, ?_⟩
    rw [Bool.and_eq_true, beq_iff_eq, beq_iff_eq]
    exact ⟨h1, h2⟩

theorem keyPresent_map_update (rid : Nat) (pc pn : String) (q wq : Int)
    (dd wh st : String) {rows : List Record} {po serial : String}
    (h : keyPresentIn rows po serial) :
    keyPresentIn (rows.map (updateAuth rid pc pn q wq dd wh st)) po serial := by
  obtain ⟨r, hr, h1, h2⟩ := h
  refine ⟨updateAuth rid pc pn q wq dd wh st r, List.mem_map_of_mem _ hr, ?_, ?_⟩
  · rw [updateAuth_po]
    exact h1
  · rw [updateAuth_serial]
    exact h2

theorem keyPresent_step (guess : String → Option Ts) (acc : Store × Tally)
    (row : ImportRow) (po serial : String)
    (h : keyPresentIn acc.1.rows po serial) :
    keyPresentIn ((upsertStep guess acc row).1).rows po serial := by
  simp only [upsertStep]
  split
  · exact h
  · split
    · exact keyPresent_map_update _ _ _ _ _ _ _ _ h
    · obtain ⟨r, hr, h1, h2⟩ := h
      exact ⟨r, List.mem_append_left _ hr, h1, h2⟩

theorem keyPresent_self_step (guess : String → Option Ts) (acc : Store × Tally)
    (row : ImportRow) (hv : validKey row) :
    keyPresentIn ((upsertStep guess acc row).1).rows
      (getStrField row.docNo) (getStrField row.serialNo) := by
  have hcond : ¬(getStrField row.docNo = "" ∨ getStrField row.serialNo = "") := by
    push_neg
    exact hv
  simp only [upsertStep, if_neg hcond]
  cases hfind : findByKey (getStrField row.docNo) (getStrField row.serialNo) acc.1.rows with
  | some r =>
    have hmem := List.mem_of_find?_eq_some hfind
    have hp := List.find?_some hfind
    rw [Bool.and_eq_true, beq_iff_eq, beq_iff_eq] at hp
    refine ⟨_, List.mem_map_of_mem _ hmem, ?_, ?_⟩
    · rw [updateAuth_po]
      exact hp.1
    · rw [updateAuth_serial]
      exact hp.2
  | none =>
    exact ⟨_, List.mem_append_right _ (List.mem_singleton.2 rfl), rfl, rfl⟩

theorem keyPresent_foldl (guess : String → Option Ts) :
    ∀ (imports : List ImportRow) (acc : Store × Tally) (po serial : String),
      keyPresentIn acc.1.rows po serial →
      keyPresentIn ((imports.foldl (upsertStep guess) acc).1).rows po serial
  | [], _, _, _, h => h
  | row :: rest, acc, po, serial, h => by
      rw [List.foldl_cons]
      exact keyPresent_foldl guess rest _ po serial (keyPresent_step guess acc row po serial h)

theorem keys_after_foldl (guess : String → Option Ts) :
    ∀ (imports : List ImportRow) (acc : Store × Tally) (row : ImportRow),
      row ∈ imports → validKey row →
      keyPresentIn ((imports.foldl (upsertStep guess) acc).1).rows
        (getStrField row.docNo) (getStrField row.serialNo)
  | [], _, row, hmem, _ => absurd hmem (List.not_mem_nil row)
  | a :: rest, acc, row, hmem, hv => by
      rw [List.foldl_cons]
      rcases List.mem_cons.1 hmem with rfl | hr
      · exact keyPresent_foldl guess rest _ _ _ (keyPresent_self_step guess acc row hv)
      · exact keys_after_foldl guess rest _ row hr hv

/-- The update applied by one valid import row that found record id `rid`. -/
def updateOf (guess : String → Option Ts) (row : ImportRow) (rid : Nat) :
    Record → Record :=
  updateAuth rid (getStrField row.productCode) (getStrField row.productName)
    (cellToQty row.txnQty) (cellToQty row.whQty)
    (normalizeDelivery guess row.deliveryCell) (getStrField row.warehouseCell)
    (getStrField row.statusCell)

theorem run_allPresent (guess : String → Option Ts) :
    ∀ (imports : List ImportRow) (s : Store) (t : Tally),
      (∀ row ∈ imports, validKey row →
        keyPresentIn s.rows (getStrField row.docNo) (getStrField row.serialNo)) →
      ((imports.foldl (upsertStep guess) (s, t)).1).rows.length = s.rows.length ∧
      List.Forall₂ opAgrees s.rows (((imports.foldl (upsertStep guess) (s, t)).1).rows)
  | [], s, t, _ => ⟨rfl, List.forall₂_same.2 (fun x _ => opAgrees_refl x)⟩
  | row :: rest, s, t, hall => by
      rw [List.foldl_cons]
      by_cases hv : validKey row
      · have hpres := hall row (List.mem_cons_self row rest) hv
        have hsome : (findByKey (getStrField row.docNo) (getStrField row.serialNo) s.rows).isSome :=
          (findByKey_isSome_iff _ _ _).2 hpres
        obtain ⟨r, hfind⟩ := Option.isSome_iff_exists.1 hsome
        have hcond : ¬(getStrField row.docNo = "" ∨ getStrField row.serialNo = "") := by
          push_neg
          exact hv
        have hstep : upsertStep guess (s, t) row =
            ({ s with rows := s.rows.map (updateOf guess row r.id) },
             { t with updated := t.updated + 1 }) := by
          simp only [upsertStep, updateOf, if_neg hcond, hfind]
        rw [hstep]
        have ih := run_allPresent guess rest
          { s with rows := s.rows.map (updateOf guess row r.id) }
          { t with updated := t.updated + 1 }
          (fun rr hrr hvrr =>
            keyPresent_map_update _ _ _ _ _ _ _ _
              (hall rr (List.mem_cons_of_mem row hrr) hvrr))
        refine ⟨?_, ?_⟩
        · rw [ih.1]
          exact List.length_map _ _
        · refine forall₂_opAgrees_trans ?_ ih.2
          exact List.forall₂_map_right_iff.2
            (List.forall₂_same.2 (fun x _ => updateAuth_opAgrees _ _ _ _ _ _ _ _ x))
      · have hcond : getStrField row.docNo = "" ∨ getStrField row.serialNo = "" := by
          unfold validKey at hv
          rw [not_and_or, not_not, not_not] at hv
          exact hv
        have hstep : upsertStep guess (s, t) row = (s, { t with skipped := t.skipped + 1 }) := by
          simp only [upsertStep, if_pos hcond]
        rw [hstep]
        exact run_allPresent guess rest s _
          (fun rr hrr hvrr => hall rr (List.mem_cons_of_mem row hrr) hvrr)

/-- `b` is `a` with the same id and the same `(po_number, item_serial_number)`
key: exactly what survives any edit the ProcureTrack operator screens can
make, since their write path only touches `arrival_date`, `dispatch_date`,
`ship_info`, `goods_status` and `remarks`. -/
def sameKey (a b : Record) : Prop :=
  b.id = a.id ∧ b.po_number = a.po_number ∧ b.item_serial_number = a.item_serial_number

theorem forall₂_sameKey_mem :
    ∀ {l1 l2 : List Record}, List.Forall₂ sameKey l1 l2 → ∀ a ∈ l1, ∃ b ∈ l2, sameKey a b
  | _, _, .nil, a, ha => absurd ha (List.not_mem_nil a)
  | _, _, .cons h t, a, ha => by
      rcases List.mem_cons.1 ha with rfl | ha'
      · exact ⟨_, List.mem_cons_self _ _, h⟩
      · obtain ⟨b, hb, hR⟩ := forall₂_sameKey_mem t a ha'
        exact ⟨b, List.mem_cons_of_mem _ hb, hR⟩

/-- **C3.** Let a first upsert run over `imports` turn store `s0` into `s1`,
and let `s2` be `s1` after arbitrary intermediate edits that keep each row's
id and `(po_number, item_serial_number)` key (in particular, after any
operator edits of `dispatch_date`, `arrival_date`, `ship_info`,
`goods_status` or `remarks`).  Re-running the upsert with the same `imports`
on `s2` leaves the row count of `procure_items` unchanged and every record's
operator-owned state (operator columns and extra columns) bit-for-bit
identical. -/
theorem procure_upsert_idempotent (guess : String → Option Ts)
    (imports : List ImportRow) (s0 s2 : Store)
    (hkeys : List.Forall₂ sameKey ((runUpsert guess imports s0).1).rows s2.rows) :
    ((runUpsert guess imports s2).1).rows.length = s2.rows.length ∧
    List.Forall₂ opAgrees s2.rows (((runUpsert guess imports s2).1).rows) := by
  unfold runUpsert
  apply run_allPresent
  intro row hmem hv
  obtain ⟨r, hr, hpo, hser⟩ := keys_after_foldl guess imports (s0, Tally.zero) row hmem hv
  obtain ⟨b, hb, hRb⟩ := forall₂_sameKey_mem hkeys r hr
  refine ⟨b, hb, ?_, ?_⟩
  · rw [hRb.2.1, hpo]
  · rw [hRb.2.2, hser]

/-- The store produced by running `[sampleRow]` on the empty store, after a
downstream operator filled `dispatch_date` and a `remarks` column. -/
def operatorEditedStore : Store :=
  ⟨2, [{ id := 1, po_number := "PO1", item_serial_number := "1",
         product_code := "P-001", product_name := "Widget", quantity := 10,
         warehouse_qty := 0, delivery_date := "", dispatch_date := "2024-05-01",
         warehouse := "W1", arrival_date := "", ship_info := "",
         status := "生產中", goods_status := "", extra := [("remarks", "call vendor")] }]⟩

theorem procure_upsert_idempotent_witness :
    List.Forall₂ sameKey ((runUpsert guessNone [sampleRow] emptyStore).1).rows
      operatorEditedStore.rows ∧
    (((runUpsert guessNone [sampleRow] operatorEditedStore).1).rows.length =
      operatorEditedStore.rows.length ∧
     List.Forall₂ opAgrees operatorEditedStore.rows
       (((runUpsert guessNone [sampleRow] operatorEditedStore).1).rows)) := by
  have hkeys : List.Forall₂ sameKey ((runUpsert guessNone [sampleRow] emptyStore).1).rows
      operatorEditedStore.rows := by
    have hrows : ((runUpsert guessNone [sampleRow] emptyStore).1).rows =
        [{ id := 1, po_number := "PO1", item_serial_number := "1",
           product_code := "P-001", product_name := "Widget", quantity := 10,
           warehouse_qty := 0, delivery_date := "", dispatch_date := "",
           warehouse := "W1", arrival_date := "", ship_info := "",
           status := "生產中", goods_status := "", extra := [] }] := by
      decide
    rw [hrows]
    exact .cons ⟨rfl, rfl, rfl⟩ .nil
  exact ⟨hkeys, procure_upsert_idempotent guessNone [sampleRow] emptyStore
    operatorEditedStore hkeys⟩

end Procure

namespace Dedup

open BI

/-! ## Dedup & Merge Resolver (claim C4)

`convert_sales_data` (lines 609-642), `convert_repair_data` (lines 753-763)
and `convert_custody_data` (lines 1235-1244) all concatenate their sources,
compute `__has_name__ = name.astype(str).str.strip().ne("")`, sort by
`["單據編號", "__has_name__"], ascending=[True, False]`, and keep the first
row per document with `drop_duplicates(subset=["單據編號"])`.  They differ
in what feeds `__has_name__`: sales and repair first pass the customer-name
column through `.astype(str).replace("nan","").replace("None","").str.strip()`
(`normName` below), while custody's 客戶名稱 is renamed from 借貨對象名稱
(line 1186) and the cleanup block at lines 1197-1228 only ever touches
客戶名稱 / 寄貨對象名稱 / 客戶 — never 借貨對象名稱 — so custody ranks the
raw values, where a missing (`NaN`) name stringifies to `"nan"` and counts
as named.  `sort_values` uses a not-necessarily-stable sort, so the sorted
frame is modelled as an arbitrary permutation of the input that is pairwise
ordered by the sort key. -/

/-- One row of the concatenated frame, restricted to what the dedup kernel
reads: the document number 單據編號, the customer-name column 客戶名稱, and a
tag standing for all remaining columns. -/
structure Row where
  doc : String
  name : String
  tag : Nat
deriving Repr, DecidableEq

/-- `astype(str).replace("nan","").replace("None","").str.strip()` — the
name cleanup applied by the sales and repair conversions (not by custody)
before the tie-break. -/
def normName (s : String) : String :=
  pyStrip (if s = "nan" then "" else if s = "None" then "" else s)

def normRow (r : Row) : Row := { r with name := normName r.name }

/-- `__has_name__` encoded as an ascending sort rank: rows whose stripped
name is non-empty (`__has_name__ = True`, sorted first under
`ascending=False`) get rank 0, the others rank 1. -/
def rank (r : Row) : Nat := if pyStrip r.name = "" then 1 else 0

/-- Lexicographic (codepoint) order on strings, the order in which python /
pandas compare `str` values. -/
def charListLtB : List Char → List Char → Bool
  | [], [] => false
  | [], _ :: _ => true
  | _ :: _, [] => false
  | a :: as, b :: bs =>
    if a.toNat < b.toNat then true
    else if b.toNat < a.toNat then false
    else charListLtB as bs

def strLtB (a b : String) : Bool := charListLtB a.toList b.toList

theorem charListLtB_self : ∀ l : List Char, charListLtB l l = false
  | [] => rfl
  | a :: as => by
      unfold charListLtB
      rw [if_neg (lt_irrefl a.toNat), if_neg (lt_irrefl a.toNat)]
      exact charListLtB_self as

theorem strLtB_self (s : String) : strLtB s s = false := charListLtB_self s.toList

/-- The key order of `sort_values(["單據編號", "__has_name__"],
ascending=[True, False])`. -/
def keyLE (a b : Row) : Prop :=
  strLtB a.doc b.doc = true ∨ (a.doc = b.doc ∧ rank a ≤ rank b)

instance decidableKeyLE (a b : Row) : Decidable (keyLE a b) :=
  inferInstanceAs (Decidable (strLtB a.doc b.doc = true ∨ (a.doc = b.doc ∧ rank a ≤ rank b)))

/-- `drop_duplicates(subset=["單據編號"])`: keep each row whose 單據編號 has
not been seen earlier. -/
def dropDupsAux (seen : List String) : List Row → List Row
  | [] => []
  | r :: rest =>
    if r.doc ∈ seen then dropDupsAux seen rest
    else r :: dropDupsAux (r.doc :: seen) rest

def dropDupsByDoc (l : List Row) : List Row := dropDupsAux [] l

theorem dropDupsAux_filter_mem (d : String) :
    ∀ (l : List Row) (seen : List String), d ∈ seen →
      (dropDupsAux seen l).filter (fun r => r.doc == d) = []
  | [], _, _ => rfl
  | r :: rest, seen, hd => by
      unfold dropDupsAux
      by_cases hr : r.doc ∈ seen
      · rw [if_pos hr]
        exact dropDupsAux_filter_mem d rest seen hd
      · rw [if_neg hr]
        have hne : (r.doc == d) = false := by
          rw [beq_eq_false_iff_ne]
          intro heq
          exact hr (heq ▸ hd)
        rw [List.filter_cons_of_neg (by rw [hne]; exact Bool.false_ne_true)]
        exact dropDupsAux_filter_mem d rest (r.doc :: seen) (List.mem_cons_of_mem _ hd)

theorem dropDupsAux_filter (d : String) :
    ∀ (l : List Row) (seen : List String), d ∉ seen →
      (dropDupsAux seen l).filter (fun r => r.doc == d) =
        (l.filter (fun r => r.doc == d)).take 1
  | [], _, _ => rfl
  | r :: rest, seen, hd => by
      unfold dropDupsAux
      by_cases hr : r.doc ∈ seen
      · rw [if_pos hr]
        have hne : (r.doc == d) = false := by
          rw [beq_eq_false_iff_ne]
          intro heq
          exact hd (heq ▸ hr)
        rw [List.filter_cons_of_neg (by rw [hne]; exact Bool.false_ne_true)]
        exact dropDupsAux_filter d rest seen hd
      · rw [if_neg hr]
        by_cases hrd : r.doc = d
        · have hbeq : (r.doc == d) = true := beq_iff_eq.2 hrd
          rw [List.filter_cons_of_pos (by rw [hbeq]), List.filter_cons_of_pos (by rw [hbeq])]
          rw [List.take_succ_cons, List.take_zero]
          rw [dropDupsAux_filter_mem d rest (r.doc :: seen) (hrd ▸ List.mem_cons_self _ _)]
        · have hne : (r.doc == d) = false := beq_eq_false_iff_ne.2 hrd
          rw [List.filter_cons_of_neg (by rw [hne]; exact Bool.false_ne_true),
            List.filter_cons_of_neg (by rw [hne]; exact Bool.false_ne_true)]
          exact dropDupsAux_filter d rest (r.doc :: seen)
            (fun hmem => (List.mem_cons.1 hmem).elim (fun h => hrd h.symm) hd)

theorem perm_pair {l : List Row} {x y : Row} (h : l.Perm [x, y]) :
    l = [x, y] ∨ l = [y, x] := by
  have hlen : l.length = 2 := by
    rw [h.length_eq]
    rfl
  match l, hlen with
  | [u, v], _ =>
    have hu : u ∈ [x, y] := h.mem_iff.1 (List.mem_cons_self u [v])
    rcases List.mem_cons.1 hu with rfl | hu'
    · left
      have hv : [v].Perm [y] := h.cons_inv
      rw [List.perm_singleton.1 hv]
    · right
      have hu2 : u = y := List.mem_singleton.1 hu'
      have h2 : ([u, v] : List Row).Perm [y, x] := h.trans (List.Perm.swap y x [])
      rw [hu2] at h2 ⊢
      have h3 : ([v] : List Row).Perm [x] := h2.cons_inv
      rw [List.perm_singleton.1 h3]

/-- Core of the tie-break: if the frame has exactly two rows for document
`d` — one ranked un-named (`rank = 1`), one ranked named (`rank = 0`) —
then every permutation of the frame that is sorted by the
`(單據編號, __has_name__ desc)` key keeps exactly the named row for `d`
after `drop_duplicates(subset=["單據編號"])`. -/
theorem dedup_pair_core (src sorted : List Row) (d : String) (a b : Row)
    (hfa : src.filter (fun r => r.doc == d) = [a, b] ∨
           src.filter (fun r => r.doc == d) = [b, a])
    (hrank_a : rank a = 1) (hrank_b : rank b = 0)
    (hperm : sorted.Perm src) (hsorted : sorted.Pairwise keyLE) :
    (dropDupsByDoc sorted).filter (fun r => r.doc == d) = [b] := by
  have hpermf := hperm.filter (fun r => r.doc == d)
  have hcases : sorted.filter (fun r => r.doc == d) = [a, b] ∨
      sorted.filter (fun r => r.doc == d) = [b, a] := by
    rcases hfa with h | h
    · rw [h] at hpermf
      exact perm_pair hpermf
    · rw [h] at hpermf
      rcases perm_pair hpermf with h' | h'
      · exact Or.inr h'
      · exact Or.inl h'
  have hpairf : (sorted.filter (fun r => r.doc == d)).Pairwise keyLE :=
    hsorted.sublist (List.filter_sublist sorted)
  have hfilter_eq : sorted.filter (fun r => r.doc == d) = [b, a] := by
    rcases hcases with h | h
    · exfalso
      rw [h] at hpairf
      have hle : keyLE a b :=
        (List.pairwise_cons.1 hpairf).1 b (List.mem_singleton.2 rfl)
      have hdoc_a : a.doc = d := by
        have ha2 : a ∈ sorted.filter (fun r => r.doc == d) := by
          rw [h]
          exact List.mem_cons_self _ _
        have := List.of_mem_filter ha2
        exact beq_iff_eq.1 this
      have hdoc_b : b.doc = d := by
        have hb2 : b ∈ sorted.filter (fun r => r.doc == d) := by
          rw [h]
          exact List.mem_cons_of_mem _ (List.mem_singleton.2 rfl)
        have := List.of_mem_filter hb2
        exact beq_iff_eq.1 this
      rcases hle with hlt | ⟨_, hrk⟩
      · rw [hdoc_a, hdoc_b, strLtB_self] at hlt
        exact Bool.false_ne_true hlt
      · rw [hrank_a, hrank_b] at hrk
        omega
    · exact h
  unfold dropDupsByDoc
  rw [dropDupsAux_filter d sorted [] (List.not_mem_nil d), hfilter_eq]
  rfl

/-- **C4 (amended).** For two rows with one document number — one un-named,
one named, concatenated in either order — after sorting (any sorted
permutation: `sort_values` need not be stable) and
`drop_duplicates(subset=["單據編號"])`:
in sales and repair, where the name column is first cleaned by
`.replace("nan","").replace("None","").str.strip()`, the retained row is
always the one whose cleaned name is non-empty;
in consignment, where the rank is computed on the raw 借貨對象名稱-derived
column with no nan/None cleanup, the same holds when the un-named row
carries a literal (whitespace-only) empty string — but not for a missing
name, which stringifies to `"nan"` and ranks as named (see the
counterexample). -/
theorem dedup_keeps_named_row :
    (∀ (rows sorted : List Row) (d : String) (a b : Row),
      (rows.filter (fun r => r.doc == d) = [a, b] ∨
       rows.filter (fun r => r.doc == d) = [b, a]) →
      normName a.name = "" →
      pyStrip (normName b.name) ≠ "" →
      sorted.Perm (rows.map normRow) →
      sorted.Pairwise keyLE →
      (dropDupsByDoc sorted).filter (fun r => r.doc == d) = [normRow b]) ∧
    (∀ (rows sorted : List Row) (d : String) (a b : Row),
      (rows.filter (fun r => r.doc == d) = [a, b] ∨
       rows.filter (fun r => r.doc == d) = [b, a]) →
      pyStrip a.name = "" →
      pyStrip b.name ≠ "" →
      sorted.Perm rows →
      sorted.Pairwise keyLE →
      (dropDupsByDoc sorted).filter (fun r => r.doc == d) = [b]) := by
  constructor
  · intro rows sorted d a b hfa ha hb hperm hsorted
    have hmapfilter : (rows.map normRow).filter (fun r => r.doc == d) =
        (rows.filter (fun r => r.doc == d)).map normRow := by
      rw [List.filter_map]
      rfl
    have hfa2 : (rows.map normRow).filter (fun r => r.doc == d) = [normRow a, normRow b] ∨
        (rows.map normRow).filter (fun r => r.doc == d) = [normRow b, normRow a] := by
      rcases hfa with h | h
      · left
        rw [hmapfilter, h]
        rfl
      · right
        rw [hmapfilter, h]
        rfl
    have hrank_a : rank (normRow a) = 1 := by
      unfold rank normRow
      simp only [ha]
      rfl
    have hrank_b : rank (normRow b) = 0 := by
      unfold rank normRow
      simp only []
      rw [if_neg hb]
    exact dedup_pair_core (rows.map normRow) sorted d (normRow a) (normRow b)
      hfa2 hrank_a hrank_b hperm hsorted
  · intro rows sorted d a b hfa ha hb hperm hsorted
    have hrank_a : rank a = 1 := by
      unfold rank
      rw [if_pos ha]
    have hrank_b : rank b = 0 := by
      unfold rank
      rw [if_neg hb]
    exact dedup_pair_core rows sorted d a b hfa hrank_a hrank_b hperm hsorted

/-- The spec's own scenario: `{doc="A", name=""}` and `{doc="A", name="Bob"}`
concatenated with the empty-name row first. -/
def emptyNameRow : Row := ⟨"A", "", 0⟩

def bobRow : Row := ⟨"A", "Bob", 1⟩

/-- The consignment form of the scenario with a missing rather than
literally empty name: the row coming from the export that lacks
借貨對象名稱 carries a `NaN` cell, which `astype(str)` renders as
`"nan"`. -/
def custodyNanRow : Row := ⟨"A", "nan", 0⟩

def custodyBobRow : Row := ⟨"A", "Bob", 1⟩

/-- **C4 (counterexample).** In the consignment conversion the claim fails
when the un-named row's name is missing: `"nan"` strips to a non-empty
string, so both rows of document "A" rank as named (`rank = 0`) and the
concatenation order `[nan-row, Bob-row]` is already pairwise sorted by the
key — a legal outcome of `sort_values`; `drop_duplicates` then retains the
missing-name row, not the named row the claim promises. -/
theorem dedup_custody_missing_name_counterexample :
    pyStrip custodyNanRow.name ≠ "" ∧
    rank custodyNanRow = 0 ∧
    ([custodyNanRow, custodyBobRow] : List Row).Perm [custodyNanRow, custodyBobRow] ∧
    ([custodyNanRow, custodyBobRow] : List Row).Pairwise keyLE ∧
    (dropDupsByDoc [custodyNanRow, custodyBobRow]).filter (fun r => r.doc == "A") =
      [custodyNanRow] ∧
    custodyNanRow ≠ custodyBobRow :=
  ⟨by decide, by decide, List.Perm.refl _, by decide, by decide, by decide⟩

theorem dedup_keeps_named_row_witness :
    (([emptyNameRow, bobRow].filter (fun r => r.doc == "A") =
        [emptyNameRow, bobRow] ∨
      [emptyNameRow, bobRow].filter (fun r => r.doc == "A") =
        [bobRow, emptyNameRow]) ∧
     normName emptyNameRow.name = "" ∧
     pyStrip (normName bobRow.name) ≠ "" ∧
     pyStrip emptyNameRow.name = "" ∧
     pyStrip bobRow.name ≠ "" ∧
     ([bobRow, emptyNameRow] : List Row).Perm
       ([emptyNameRow, bobRow].map normRow) ∧
     ([bobRow, emptyNameRow] : List Row).Perm [emptyNameRow, bobRow] ∧
     ([bobRow, emptyNameRow] : List Row).Pairwise keyLE) ∧
    (dropDupsByDoc [bobRow, emptyNameRow]).filter (fun r => r.doc == "A") =
      [normRow bobRow] ∧
    (dropDupsByDoc [bobRow, emptyNameRow]).filter (fun r => r.doc == "A") =
      [bobRow] :=
  ⟨⟨Or.inl (by decide), by decide, by decide, by decide, by decide, by decide,
    by decide, by decide⟩,
   dedup_keeps_named_row.1 [emptyNameRow, bobRow] [bobRow, emptyNameRow] "A"
     emptyNameRow bobRow (Or.inl (by decide)) (by decide) (by decide)
     (by decide) (by decide),
   dedup_keeps_named_row.2 [emptyNameRow, bobRow] [bobRow, emptyNameRow] "A"
     emptyNameRow bobRow (Or.inl (by decide)) (by decide) (by decide)
     (by decide) (by decide)⟩

end Dedup

namespace Chunks

/-! ## Batch Loader (`insert_data_in_chunks`, lines 384-410; claim C5) -/

/-- `range(0, total, step)` for a positive step: the chunk start offsets. -/
def chunkStarts (total step : Nat) : List Nat :=
  (List.range ((total + step - 1) / step)).map (· * step)

/-- `insert_data_in_chunks(df, conn, table_name, chunk_size)`: first
`DROP TABLE IF EXISTS` (the incoming table contents are discarded
unconditionally), then for each chunk start `i` the slice
`df.iloc[i : i + chunk_size]` is written — with `if_exists="replace"` when
`i == 0` (this creates the table) and `if_exists="append"` otherwise (which
also creates the table if absent).  `none` models an absent table; note the
loop body never runs when `df` is empty, so the dropped table is then never
recreated. -/
def insert_data_in_chunks {α : Type} (df : List α) (table : Option (List α))
    (chunkSize : Nat) : Option (List α) :=
  let _ := table
  (chunkStarts df.length chunkSize).foldl
    (fun t i =>
      let chunk := (df.drop i).take chunkSize
      if i = 0 then some chunk else some (t.getD [] ++ chunk))
    none

theorem chunk_fold_append {α : Type} (df : List α) :
    ∀ (m j : Nat),
      ((List.range m).map (fun t => (j + 1 + t) * 1000)).foldl
        (fun t i =>
          let chunk := (df.drop i).take 1000
          if i = 0 then some chunk else some (t.getD [] ++ chunk))
        (some (df.take ((j + 1) * 1000))) =
      some (df.take ((j + 1 + m) * 1000))
  | 0, j => rfl
  | m + 1, j => by
      rw [List.range_succ_eq_map, List.map_cons, List.map_map, List.foldl_cons]
      have hne : (j + 1 + 0) * 1000 ≠ 0 := by omega
      rw [if_neg hne]
      have hchunk : df.take ((j + 1) * 1000) ++ (df.drop ((j + 1 + 0) * 1000)).take 1000 =
          df.take ((j + 1 + 1) * 1000) := by
        have h0 : j + 1 + 0 = j + 1 := by omega
        have h1 : (j + 1 + 1) * 1000 = (j + 1) * 1000 + 1000 := by ring
        rw [h0, h1, List.take_add]
      have hmap : ((List.range m).map ((fun t => (j + 1 + t) * 1000) ∘ Nat.succ)) =
          (List.range m).map (fun t => (j + 1 + 1 + t) * 1000) := by
        apply List.map_congr_left
        intro t _
        show (j + 1 + (t + 1)) * 1000 = (j + 1 + 1 + t) * 1000
        ring_nf
      rw [show (Option.getD (some (df.take ((j + 1) * 1000))) [] ++
            (df.drop ((j + 1 + 0) * 1000)).take 1000) =
          df.take ((j + 1 + 1) * 1000) from hchunk, hmap]
      have := chunk_fold_append df m (j + 1)
      rw [this]
      congr 2
      omega

/-- **C5 (amended).** `insert_data_in_chunks` with the source's chunk size
1000 first deletes the existing table unconditionally and then writes the
frame in row slices of at most 1000 rows each; for every frame of `N ≥ 1`
rows the target table afterwards holds exactly the `N` rows of the frame
(e.g. N = 2500 is written as chunks 1000/1000/500), while for `N = 0` the
loop body never runs, so the old table is deleted and no table is
recreated — no 0-row table remains. -/
theorem insert_chunks_spec {α : Type} (df : List α) (table : Option (List α)) :
    (df ≠ [] → insert_data_in_chunks df table 1000 = some df) ∧
    (df = [] → insert_data_in_chunks df table 1000 = none) ∧
    (∀ i ∈ chunkStarts df.length 1000, ((df.drop i).take 1000).length ≤ 1000) := by
  refine ⟨?_, ?_, ?_⟩
  · intro hne
    have hn : 1 ≤ df.length := by
      cases df with
      | nil => exact absurd rfl hne
      | cons a l => exact Nat.succ_le_succ (Nat.zero_le _)
    obtain ⟨m, hm⟩ : ∃ m, (df.length + 1000 - 1) / 1000 = m + 1 :=
      ⟨(df.length + 1000 - 1) / 1000 - 1, by omega⟩
    unfold insert_data_in_chunks chunkStarts
    rw [hm, List.range_succ_eq_map, List.map_cons, List.map_map, List.foldl_cons]
    have h00 : (0 : Nat) * 1000 = 0 := by ring
    rw [h00, if_pos rfl, List.drop_zero]
    have hmap : ((List.range m).map ((· * 1000) ∘ Nat.succ)) =
        (List.range m).map (fun t => (0 + 1 + t) * 1000) := by
      apply List.map_congr_left
      intro t _
      show (t + 1) * 1000 = (0 + 1 + t) * 1000
      ring_nf
    rw [show df.take 1000 = df.take ((0 + 1) * 1000) by norm_num, hmap,
      chunk_fold_append df m 0]
    have hlen : df.length ≤ (0 + 1 + m) * 1000 := by omega
    rw [List.take_of_length_le hlen]
  · intro h
    subst h
    simp [insert_data_in_chunks, chunkStarts]
  · intro i _
    rw [List.length_take]
    exact min_le_left _ _

/-- **C5 (counterexample).** Loading an empty frame (`N = 0`) into an
existing one-row table leaves no table at all — `DROP TABLE IF EXISTS` ran
but the chunk loop never did — whereas the claim promises a target table
with exactly `N = 0` rows. -/
theorem insert_chunks_empty_drops_table :
    insert_data_in_chunks ([] : List Nat) (some [7]) 1000 = none ∧
    (none : Option (List Nat)) ≠ some [] :=
  ⟨rfl, by decide⟩

theorem insert_chunks_spec_witness :
    (List.replicate 2500 (0 : Nat)) ≠ [] ∧
    insert_data_in_chunks (List.replicate 2500 (0 : Nat)) none 1000 =
      some (List.replicate 2500 (0 : Nat)) := by
  have hne : (List.replicate 2500 (0 : Nat)) ≠ [] := by
    intro h
    have hl := congrArg List.length h
    rw [List.length_replicate] at hl
    exact absurd hl (by simp)
  exact ⟨hne, (insert_chunks_spec (List.replicate 2500 (0 : Nat)) none).1 hne⟩

end Chunks

namespace DateNorm

open BI

/-! ## Date Normalizer (`convert_datetime_optimized`, lines 146-280;
claims C6 and C7)

A date column is modelled by its pandas dtype: an already-typed timestamp
column (`datetimeCol`, `none` = `NaT`), a numeric column (`intCol`, modelled
with integral day serials and no missing values), or an object column of
text values (`strCol`, `none` = `NaN`). -/

/-- `clean_date_string`'s weekday characters 一二三四五六日. -/
def weekdayChars : List Char := ['一', '二', '三', '四', '五', '六', '日']

/-- Match `\s*\([一二三四五六日]\)\s*` at the head of `l`, returning the
remainder after the match. -/
def weekdayMatch? (l : List Char) : Option (List Char) :=
  match l.dropWhile Char.isWhitespace with
  | '(' :: d :: ')' :: rest =>
      if d ∈ weekdayChars then some (rest.dropWhile Char.isWhitespace) else none
  | _ => none

theorem weekdayMatch?_length {l r : List Char} (h : weekdayMatch? l = some r) :
    r.length < l.length := by
  have hsubl : List.Sublist (l.dropWhile Char.isWhitespace) l := List.dropWhile_sublist _
  have hsub : (l.dropWhile Char.isWhitespace).length ≤ l.length := hsubl.length_le
  unfold weekdayMatch? at h
  split at h
  · next d rest heq =>
    split at h
    · injection h with h'
      have hsubr : List.Sublist (rest.dropWhile Char.isWhitespace) rest := List.dropWhile_sublist _
      have hsub2 : (rest.dropWhile Char.isWhitespace).length ≤ rest.length := hsubr.length_le
      rw [heq] at hsub
      simp only [List.length_cons] at hsub
      rw [← h']
      omega
    · cases h
  · cases h

/-- The repeated-substitution scan of
`re.sub(r"\s*\([一二三四五六日]\)\s*", "", ·)`.  Fuel-driven for kernel
evaluation; by `weekdayMatch?_length` each step strictly shrinks the list,
so a fuel of `l.length` never runs out. -/
def stripWeekdayFuel : Nat → List Char → List Char
  | _, [] => []
  | 0, l => l
  | fuel + 1, c :: rest =>
    match weekdayMatch? (c :: rest) with
    | some rest' => stripWeekdayFuel fuel rest'
    | none => c :: stripWeekdayFuel fuel rest

def stripWeekdayList (l : List Char) : List Char := stripWeekdayFuel l.length l

/-- `clean_date_string`: remove weekday parentheticals, then strip (`NaN`
values are handled by the callers; an empty string comes out unchanged either
way). -/
def cleanDateString (s : String) : String :=
  pyStrip (stripWeekdayList s.toList).asString

def natOfDigits (cs : List Char) : Nat :=
  cs.foldl (fun n c => n * 10 + (c.toNat - 48)) 0

/-- A strptime numeric field of between `minL` and `maxL` digits. -/
def fieldNat? (minL maxL : Nat) (cs : List Char) : Option Nat :=
  if minL ≤ cs.length ∧ cs.length ≤ maxL ∧ cs ≠ [] ∧ cs.all Char.isDigit then
    some (natOfDigits cs)
  else none

def splitOnChar (sep : Char) : List Char → List (List Char)
  | [] => [[]]
  | c :: rest =>
    let r := splitOnChar sep rest
    if c = sep then [] :: r
    else
      match r with
      | [] => [[c]]
      | h :: t => (c :: h) :: t

def isLeap (y : Nat) : Bool :=
  (y % 4 == 0 && y % 100 != 0) || y % 400 == 0

def daysInMonth (y m : Nat) : Nat :=
  if m = 2 then (if isLeap y then 29 else 28)
  else if m = 4 ∨ m = 6 ∨ m = 9 ∨ m = 11 then 30
  else 31

def validYMD (y m d : Nat) : Bool :=
  decide (1 ≤ m ∧ m ≤ 12 ∧ 1 ≤ d ∧ d ≤ daysInMonth y m)

def mkTs (y m d secs : Nat) : Ts := ⟨daysFromCivil (y : Int) m d, secs⟩

/-- `%Y<sep>%m<sep>%d`: the year exactly four digits (the four-digit years of
the source exports), month and day one or two digits, a valid calendar date. -/
def parseDateSep (sep : Char) (cs : List Char) : Option (Nat × Nat × Nat) :=
  match splitOnChar sep cs with
  | [ys, ms, ds] =>
    match fieldNat? 4 4 ys, fieldNat? 1 2 ms, fieldNat? 1 2 ds with
    | some y, some m, some d => if validYMD y m d then some (y, m, d) else none
    | _, _, _ => none
  | _ => none

/-- `%H:%M:%S` to a second-of-day. -/
def parseTimeOfDay (cs : List Char) : Option Nat :=
  match splitOnChar ':' cs with
  | [hs, ms, ss] =>
    match fieldNat? 1 2 hs, fieldNat? 1 2 ms, fieldNat? 1 2 ss with
    | some h, some m, some s =>
      if h ≤ 23 ∧ m ≤ 59 ∧ s ≤ 61 then some (h * 3600 + m * 60 + s) else none
    | _, _, _ => none
  | _ => none

/-- `%m/%d/%Y` (`monthFirst`) or `%d/%m/%Y`. -/
def parseMDY (monthFirst : Bool) (cs : List Char) : Option (Nat × Nat × Nat) :=
  match splitOnChar '/' cs with
  | [as, bs, ys] =>
    match fieldNat? 1 2 as, fieldNat? 1 2 bs, fieldNat? 4 4 ys with
    | some a, some b, some y =>
      let m := if monthFirst then a else b
      let d := if monthFirst then b else a
      if validYMD y m d then some (y, m, d) else none
    | _, _, _ => none
  | _ => none

/-- `%Y%m%d`, modelled as the zero-padded eight-digit layout. -/
def parseCompact (cs : List Char) : Option (Nat × Nat × Nat) :=
  if cs.length = 8 ∧ cs.all Char.isDigit then
    let y := natOfDigits (cs.take 4)
    let m := natOfDigits ((cs.drop 4).take 2)
    let d := natOfDigits (cs.drop 6)
    if validYMD y m d then some (y, m, d) else none
  else none

def splitDateTime (cs : List Char) : Option (List Char × List Char) :=
  match splitOnChar ' ' cs with
  | [d, t] => some (d, t)
  | _ => none

/-- The `formats_to_try` catalog, in source order:
`%Y/%m/%d`, `%Y-%m-%d`, `%Y/%m/%d %H:%M:%S`, `%Y-%m-%d %H:%M:%S`,
`%m/%d/%Y`, `%d/%m/%Y`, `%Y%m%d`. -/
inductive DateFmt where
  | ymdSlash | ymdDash | ymdSlashTime | ymdDashTime | mdySlash | dmySlash | ymdCompact
deriving Repr, DecidableEq

def formatsToTry : List DateFmt :=
  [.ymdSlash, .ymdDash, .ymdSlashTime, .ymdDashTime, .mdySlash, .dmySlash, .ymdCompact]

/-- `pd.to_datetime(value, format=fmt, errors="coerce")` on one value. -/
def parseWithFmt (f : DateFmt) (s : String) : Option Ts :=
  let cs := s.toList
  match f with
  | .ymdSlash => (parseDateSep '/' cs).map (fun p => mkTs p.1 p.2.1 p.2.2 0)
  | .ymdDash => (parseDateSep '-' cs).map (fun p => mkTs p.1 p.2.1 p.2.2 0)
  | .ymdSlashTime =>
    match splitDateTime cs with
    | some (dcs, tcs) =>
      match parseDateSep '/' dcs, parseTimeOfDay tcs with
      | some p, some secs => some (mkTs p.1 p.2.1 p.2.2 secs)
      | _, _ => none
    | none => none
  | .ymdDashTime =>
    match splitDateTime cs with
    | some (dcs, tcs) =>
      match parseDateSep '-' dcs, parseTimeOfDay tcs with
      | some p, some secs => some (mkTs p.1 p.2.1 p.2.2 secs)
      | _, _ => none
    | none => none
  | .mdySlash => (parseMDY true cs).map (fun p => mkTs p.1 p.2.1 p.2.2 0)
  | .dmySlash => (parseMDY false cs).map (fun p => mkTs p.1 p.2.1 p.2.2 0)
  | .ymdCompact => (parseCompact cs).map (fun p => mkTs p.1 p.2.1 p.2.2 0)

/-- A date column with its pandas dtype. -/
inductive Column where
  | datetimeCol (vals : List (Option Ts))
  | intCol (vals : List Int)
  | strCol (vals : List (Option String))
deriving Repr, DecidableEq

def colLength : Column → Nat
  | .datetimeCol v => v.length
  | .intCol v => v.length
  | .strCol v => v.length

/-- The column's values as the observable text/missing outcomes:
`NaN`/`NaT` are `none`, timestamps render via `strftime`, numbers via
`str`. -/
def colValues : Column → List (Option String)
  | .strCol vals => vals
  | .intCol vals => vals.map (fun v => some (toString v))
  | .datetimeCol vals => vals.map (Option.map formatTs)

/-- `original_data.apply(self.clean_date_string)`. -/
def cleanedValues : Column → List (Option String)
  | .strCol vals => vals.map (Option.map cleanDateString)
  | .intCol vals => vals.map (fun v => some (cleanDateString (toString v)))
  | .datetimeCol vals => vals.map (Option.map (fun t => cleanDateString (formatTs t)))

def countSome {α : Type} (l : List (Option α)) : Nat :=
  l.countP (fun v => v.isSome)

/-- Method 2's format loop: the first format of the catalog that converts at
least one value is applied to the whole column (values it cannot parse
becoming `NaT` → `NaN` after `strftime`). -/
def firstFmtHit (cleaned : List (Option String)) : List DateFmt → Option (List (Option String))
  | [] => none
  | f :: rest =>
    let conv := cleaned.map (fun v => v.bind (parseWithFmt f))
    if 0 < countSome conv then some (conv.map (Option.map formatTs))
    else firstFmtHit cleaned rest

/-- `astype(str)` on the original column. -/
def stringifyColumn : Column → List String
  | .intCol vals => vals.map (fun v => toString v)
  | .strCol vals => vals.map (fun v => match v with | some s => s | none => "nan")
  | .datetimeCol vals => vals.map (fun v => match v with | some t => formatTs t | none => "NaT")

/-- Methods 2 (explicit formats over the cleaned values), 3 (best-effort
parse) and the final `astype(str)` fallback. -/
def textMethods (guess : String → Option Ts) (col : Column) : Column :=
  let cleaned := cleanedValues col
  match firstFmtHit cleaned formatsToTry with
  | some out => .strCol out
  | none =>
    let gen := cleaned.map (fun v => v.bind guess)
    if 0 < countSome gen then .strCol (gen.map (Option.map formatTs))
    else .strCol ((stringifyColumn col).map some)

/-- `convert_datetime_optimized` on one date column: skip when nothing is
non-null; format typed timestamp columns directly; on a numeric column, when
at least one value lies in the plausible serial range `[1, 100000]`, convert
the whole column as day serials from 1899-12-30; otherwise fall through to
the textual methods. -/
def convertColumn (guess : String → Option Ts) (col : Column) : Column :=
  match col with
  | .datetimeCol vals =>
    if countSome vals = 0 then col
    else .strCol (vals.map (Option.map formatTs))
  | .intCol vals =>
    if vals.length = 0 then col
    else if vals.any (fun v => decide (1 ≤ v ∧ v ≤ 100000)) then
      let conv := vals.map serialToTs
      if 0 < countSome conv then .strCol (conv.map (Option.map formatTs))
      else textMethods guess col
    else textMethods guess col
  | .strCol vals =>
    if countSome vals = 0 then col
    else textMethods guess col

end DateNorm

namespace DateNorm

open BI

/-! ## Claims C6 and C7 -/

theorem countSome_eq_zero {α : Type} {l : List (Option α)} (h : countSome l = 0) :
    ∀ v ∈ l, v = none := by
  intro v hv
  have := List.countP_eq_zero.1 h v hv
  cases v with
  | none => rfl
  | some a => simp at this

theorem mem_map_formatTs {l : List (Option Ts)} {v : Option String}
    (h : v ∈ l.map (Option.map formatTs)) :
    v = none ∨ ∃ t, v = some (formatTs t) := by
  obtain ⟨x, _, rfl⟩ := List.mem_map.1 h
  cases x with
  | none => exact Or.inl rfl
  | some t => exact Or.inr ⟨t, rfl⟩

theorem firstFmtHit_shape :
    ∀ (fmts : List DateFmt) {cleaned out : List (Option String)},
      firstFmtHit cleaned fmts = some out →
      out.length = cleaned.length ∧ ∀ v ∈ out, v = none ∨ ∃ t, v = some (formatTs t)
  | [], _, _, h => by cases h
  | f :: rest, cleaned, out, h => by
      simp only [firstFmtHit] at h
      split at h
      · injection h with h'
        subst h'
        refine ⟨by rw [List.length_map, List.length_map], ?_⟩
        intro v hv
        exact mem_map_formatTs hv
      · exact firstFmtHit_shape rest h

theorem cleanedValues_length (col : Column) :
    (cleanedValues col).length = colLength col := by
  cases col <;> simp [cleanedValues, colLength]

theorem stringify_length (col : Column) :
    (stringifyColumn col).length = colLength col := by
  cases col <;> simp [stringifyColumn, colLength]

theorem colLength_strCol (v : List (Option String)) :
    colLength (Column.strCol v) = v.length := rfl

theorem textMethods_length (guess : String → Option Ts) (col : Column) :
    colLength (textMethods guess col) = colLength col := by
  simp only [textMethods]
  cases hfh : firstFmtHit (cleanedValues col) formatsToTry with
  | some out =>
    have h1 := (firstFmtHit_shape _ hfh).1
    show colLength (Column.strCol out) = colLength col
    rw [colLength_strCol, h1, cleanedValues_length]
  | none =>
    show colLength (if 0 < countSome ((cleanedValues col).map (fun v => v.bind guess)) then
        Column.strCol (((cleanedValues col).map (fun v => v.bind guess)).map (Option.map formatTs))
      else Column.strCol ((stringifyColumn col).map some)) = colLength col
    split
    · rw [colLength_strCol, List.length_map, List.length_map, cleanedValues_length]
    · rw [colLength_strCol, List.length_map, stringify_length]

theorem textMethods_values (guess : String → Option Ts) (col : Column) :
    ∀ v ∈ colValues (textMethods guess col),
      v = none ∨ (∃ t, v = some (formatTs t)) ∨ v ∈ (stringifyColumn col).map some := by
  simp only [textMethods]
  cases hfh : firstFmtHit (cleanedValues col) formatsToTry with
  | some out =>
    show ∀ v ∈ colValues (Column.strCol out),
      v = none ∨ (∃ t, v = some (formatTs t)) ∨ v ∈ (stringifyColumn col).map some
    intro v hv
    rcases (firstFmtHit_shape _ hfh).2 v hv with h | h
    · exact Or.inl h
    · exact Or.inr (Or.inl h)
  | none =>
    show ∀ v ∈ colValues (if 0 < countSome ((cleanedValues col).map (fun v => v.bind guess)) then
        Column.strCol (((cleanedValues col).map (fun v => v.bind guess)).map (Option.map formatTs))
      else Column.strCol ((stringifyColumn col).map some)),
      v = none ∨ (∃ t, v = some (formatTs t)) ∨ v ∈ (stringifyColumn col).map some
    split
    · intro v hv
      have hv2 : v ∈ ((cleanedValues col).map (fun v => v.bind guess)).map (Option.map formatTs) := hv
      rcases mem_map_formatTs hv2 with h | h
      · exact Or.inl h
      · exact Or.inr (Or.inl h)
    · intro v hv
      have hv2 : v ∈ (stringifyColumn col).map some := hv
      exact Or.inr (Or.inr hv2)

theorem firstFmtHit_none :
    ∀ (fmts : List DateFmt) (cleaned : List (Option String)),
      (∀ f ∈ fmts, ∀ v ∈ cleaned, v.bind (parseWithFmt f) = none) →
      firstFmtHit cleaned fmts = none
  | [], _, _ => rfl
  | f :: rest, cleaned, hall => by
      simp only [firstFmtHit]
      have hcnt : countSome (cleaned.map (fun v => v.bind (parseWithFmt f))) = 0 := by
        apply List.countP_eq_zero.2
        intro a ha
        obtain ⟨x, hx, rfl⟩ := List.mem_map.1 ha
        rw [hall f (List.mem_cons_self f rest) x hx]
        simp
      rw [if_neg (by omega : ¬(0 < countSome (cleaned.map (fun v => v.bind (parseWithFmt f)))))]
      exact firstFmtHit_none rest cleaned (fun g hg => hall g (List.mem_cons_of_mem f hg))

theorem textMethods_fallback (guess : String → Option Ts) (col : Column)
    (hfmt : ∀ f ∈ formatsToTry, ∀ v ∈ cleanedValues col, v.bind (parseWithFmt f) = none)
    (hgen : ∀ v ∈ cleanedValues col, v.bind guess = none) :
    textMethods guess col = Column.strCol ((stringifyColumn col).map some) := by
  have hfh := firstFmtHit_none formatsToTry (cleanedValues col) hfmt
  have hcnt : countSome ((cleanedValues col).map (fun v => v.bind guess)) = 0 := by
    apply List.countP_eq_zero.2
    intro a ha
    obtain ⟨x, hx, rfl⟩ := List.mem_map.1 ha
    rw [hgen x hx]
    simp
  simp only [textMethods, hfh]
  rw [if_neg (by omega : ¬(0 < countSome ((cleanedValues col).map (fun v => v.bind guess))))]

/-- **C7 (amended).** `convert_datetime_optimized` is total (every failure
path is caught; no exception escapes) and, per value, produces either a
missing value (`NaN` — when the column's first successful strategy fails on
that particular value), a canonical `"YYYY-MM-DD HH:MM:SS"` string, or the
original value coerced to text; the column keeps its length.  A value that
matches no configured pattern comes out as the stringified input only
per-column: when no explicit format parses any value of the column and the
best-effort parser fails on every value, the whole column falls back to
`astype(str)`. -/
theorem convert_datetime_total (guess : String → Option Ts) (col : Column) :
    colLength (convertColumn guess col) = colLength col ∧
    (∀ v ∈ colValues (convertColumn guess col),
      v = none ∨ (∃ t, v = some (formatTs t)) ∨ v ∈ (stringifyColumn col).map some) ∧
    (∀ vals, col = Column.strCol vals → 0 < countSome vals →
      (∀ f ∈ formatsToTry, ∀ v ∈ cleanedValues col, v.bind (parseWithFmt f) = none) →
      (∀ v ∈ cleanedValues col, v.bind guess = none) →
      convertColumn guess col = Column.strCol ((stringifyColumn col).map some)) := by
  refine ⟨?_, ?_, ?_⟩
  · cases col with
    | datetimeCol vals =>
      simp only [convertColumn]
      split
      · rfl
      · rw [colLength_strCol, List.length_map]
        rfl
    | intCol vals =>
      simp only [convertColumn]
      split
      · rfl
      · split
        · split
          · rw [colLength_strCol, List.length_map, List.length_map]
            rfl
          · exact textMethods_length guess _
        · exact textMethods_length guess _
    | strCol vals =>
      simp only [convertColumn]
      split
      · rfl
      · exact textMethods_length guess _
  · cases col with
    | datetimeCol vals =>
      simp only [convertColumn]
      split
      · intro v hv
        simp only [colValues] at hv
        rcases mem_map_formatTs hv with h | h
        · exact Or.inl h
        · exact Or.inr (Or.inl h)
      · intro v hv
        simp only [colValues] at hv
        rcases mem_map_formatTs hv with h | h
        · exact Or.inl h
        · exact Or.inr (Or.inl h)
    | intCol vals =>
      simp only [convertColumn]
      split
      · next hlen =>
        have hnil : vals = [] := List.length_eq_zero.1 hlen
        subst hnil
        intro v hv
        simp [colValues] at hv
      · split
        · split
          · intro v hv
            simp only [colValues] at hv
            rcases mem_map_formatTs hv with h | h
            · exact Or.inl h
            · exact Or.inr (Or.inl h)
          · exact textMethods_values guess _
        · exact textMethods_values guess _
    | strCol vals =>
      simp only [convertColumn]
      split
      · next hcnt =>
        intro v hv
        simp only [colValues] at hv
        exact Or.inl (countSome_eq_zero hcnt v hv)
      · exact textMethods_values guess _
  · intro vals hcol hsome hfmt hgen
    subst hcol
    simp only [convertColumn]
    rw [if_neg (by omega : ¬(countSome vals = 0))]
    exact textMethods_fallback guess _ hfmt hgen

theorem convert_datetime_total_witness :
    (0 < countSome [some "hello"] ∧
     (∀ f ∈ formatsToTry, ∀ v ∈ cleanedValues (Column.strCol [some "hello"]),
        v.bind (parseWithFmt f) = none) ∧
     (∀ v ∈ cleanedValues (Column.strCol [some "hello"]), v.bind Procure.guessNone = none)) ∧
    convertColumn Procure.guessNone (Column.strCol [some "hello"]) =
      Column.strCol ((stringifyColumn (Column.strCol [some "hello"])).map some) :=
  ⟨⟨by decide, by decide, by decide⟩,
   (convert_datetime_total Procure.guessNone (Column.strCol [some "hello"])).2.2
     [some "hello"] rfl (by decide) (by decide) (by decide)⟩

/-- **C7 (counterexample).** In the column `["2020/01/16", "hello"]` the
first format `%Y/%m/%d` parses one value, so the whole column is replaced by
that format's parse: `"hello"` matches no configured pattern yet comes out
as a missing value (`NaN`), not as the stringified input `"hello"`. -/
theorem datetime_mixed_column_counterexample :
    convertColumn Procure.guessNone (Column.strCol [some "2020/01/16", some "hello"]) =
      Column.strCol [some "2020-01-16 00:00:00", none] ∧
    (none : Option String) ≠ some "hello" :=
  ⟨by decide, by decide⟩

/-- **C6 (the code at the failing input).** In the numeric column
`[50, 120000]` the value 120000 lies outside the plausible range
`[1, 100000]`, yet because the range mask is only consulted through
`.any()` — a column-level gate — the serial-number step converts it to the
calendar date 2228-07-18 instead of rejecting it and letting it fall through
as the text `"120000"`; the comment above the mask ("過濾掉明顯不是日期的數字")
documents the intended per-value filter that the code does not apply. -/
theorem datetime_serial_gate_counterexample :
    convertColumn Procure.guessNone (Column.intCol [50, 120000]) =
      Column.strCol [some "1900-02-18 00:00:00", some "2228-07-18 00:00:00"] ∧
    ¬(1 ≤ (120000 : Int) ∧ (120000 : Int) ≤ 100000) :=
  ⟨by decide, by decide⟩

end DateNorm

namespace Reconcile

open BI

/-! ## Column Reconciler (claim C9)

`convert_customer_data` (lines 491-519) resolves each canonical customer
column through a fixed candidate list (the canonical name first, then the
positional `Unnamed: k` placeholder), copying the first match with
`astype(str).replace("nan","").replace("None","")` cleanup, and otherwise
creating the column filled with the empty string.  The last definition of
`convert_inventory_inquiry_data` (lines 1607-1661) renames source columns
through a substring rule chain and then fills every required canonical
column that is still missing with the empty string.  A frame is an
association list from header to cell column; the scalar fill `df[col] = ""`
is modelled as the length-`n` broadcast over the frame's rows, and column
selection reads the first column with a given label. -/

abbrev SourceFrame := List (String × List Cell)

def getCol (src : SourceFrame) (name : String) : Option (List Cell) :=
  (src.find? (fun p => p.1 == name)).map (fun p => p.2)

/-- `df_customer[col].astype(str).replace("nan", "").replace("None", "")`. -/
def cleanSeries (cells : List Cell) : List String :=
  cells.map (fun c =>
    let s := cellText c
    if s = "nan" then "" else if s = "None" then "" else s)

/-- The `column_mapping` dictionary of `convert_customer_data`. -/
def customerColumnMapping : List (String × List String) :=
  [("客戶代碼", ["客戶代碼", "Unnamed: 0"]),
   ("客戶名稱", ["客戶名稱", "Unnamed: 3"]),
   ("聯絡地址", ["聯絡地址", "Unnamed: 2"]),
   ("郵遞區號", ["郵遞區號", "Unnamed: 1"]),
   ("聯絡電話", ["聯絡電話", "Unnamed: 10"]),
   ("聯絡人", ["聯絡人", "Unnamed: 9"]),
   ("業務人員名稱", ["業務人員名稱", "Unnamed: 4"]),
   ("銷售分類碼名稱", ["銷售分類碼名稱", "Unnamed: 5"]),
   ("預設銷售通路名稱", ["預設銷售通路名稱", "Unnamed: 6"]),
   ("正航舊編碼", ["正航舊編碼", "Unnamed: 7"]),
   ("舊編碼", ["舊編碼", "Unnamed: 8"])]

/-- The per-target loop of `convert_customer_data`: the first candidate
column present in the source wins (`break`); when no candidate is present
the canonical column is created filled with `""`. -/
def resolveTarget (src : SourceFrame) (n : Nat) (p : String × List String) :
    String × List String :=
  match p.2.findSome? (fun c => getCol src c) with
  | some cells => (p.1, cleanSeries cells)
  | none => (p.1, List.replicate n "")

def reconcileCustomer (src : SourceFrame) (n : Nat) : List (String × List String) :=
  customerColumnMapping.map (resolveTarget src n)

def isPrefixList : List Char → List Char → Bool
  | [], _ => true
  | _ :: _, [] => false
  | a :: as, b :: bs => a == b && isPrefixList as bs

def containsList (needle : List Char) : List Char → Bool
  | [] => needle.isEmpty
  | c :: t => isPrefixList needle (c :: t) || containsList needle t

/-- Python's `needle in hay` on strings. -/
def containsSub (hay needle : String) : Bool := containsList needle.toList hay.toList

/-- The `if/elif` substring rule chain building `column_mapping` in the last
`convert_inventory_inquiry_data`. -/
def invCanonical (col : String) : Option String :=
  if containsSub col "產品名稱" then some "product_name"
  else if containsSub col "倉庫名稱" then some "warehouse_name"
  else if containsSub col "倉庫往來對象名稱" || containsSub col "往來對象" then
    some "warehouse_partner_name"
  else if containsSub col "存貨屬性" || containsSub col "庫存屬性" || col == "屬性" then
    some "inventory_type"
  else if containsSub col "產品代碼" || containsSub col "代碼" then some "product_code"
  else if containsSub col "規格" then some "specification"
  else if containsSub col "單位" then some "unit"
  else if containsSub col "數量" then some "quantity"
  else if containsSub col "單價" then some "unit_price"
  else if containsSub col "總金額" || containsSub col "金額" then some "total_amount"
  else if containsSub col "更新日期" || containsSub col "日期" then some "last_update_date"
  else if containsSub col "備註" then some "remark"
  else none

/-- `df.rename(columns=column_mapping)`. -/
def renameCols (src : SourceFrame) : SourceFrame :=
  src.map (fun p => ((invCanonical p.1).getD p.1, p.2))

def requiredColumns : List String :=
  ["product_name", "warehouse_name", "warehouse_partner_name", "inventory_type",
   "product_code", "specification", "unit", "quantity", "unit_price",
   "total_amount", "last_update_date", "remark"]

/-- The fill loop `if col not in df_mapped.columns: df_mapped[col] = ""`
followed by the selection `df_mapped[required_columns]`. -/
def fillRequired (mapped : SourceFrame) (n : Nat) (c : String) : String × List Cell :=
  match mapped.find? (fun p => p.1 == c) with
  | some p => (c, p.2)
  | none => (c, List.replicate n (Cell.str ""))

def reconcileInventory (src : SourceFrame) (n : Nat) : SourceFrame :=
  requiredColumns.map (fillRequired (renameCols src) n)

theorem resolveTarget_fst (src : SourceFrame) (n : Nat) (p : String × List String) :
    (resolveTarget src n p).1 = p.1 := by
  unfold resolveTarget
  split <;> rfl

theorem resolveTarget_none (src : SourceFrame) (n : Nat) (p : String × List String)
    (h : ∀ c ∈ p.2, getCol src c = none) :
    resolveTarget src n p = (p.1, List.replicate n "") := by
  unfold resolveTarget
  rw [List.findSome?_eq_none_iff.2 h]

theorem fillRequired_fst (mapped : SourceFrame) (n : Nat) (c : String) :
    (fillRequired mapped n c).1 = c := by
  unfold fillRequired
  split <;> rfl

theorem fillRequired_none (mapped : SourceFrame) (n : Nat) (c : String)
    (h : ∀ p ∈ mapped, p.1 ≠ c) :
    fillRequired mapped n c = (c, List.replicate n (Cell.str "")) := by
  unfold fillRequired
  have hfind : mapped.find? (fun p => p.1 == c) = none := by
    rw [List.find?_eq_none]
    intro p hp
    rw [beq_eq_false_iff_ne.2 (h p hp)]
    exact Bool.false_ne_true
  rw [hfind]

/-- **C9.** Neither reconciliation can raise a lookup error for a missing
column: for every canonical customer column the output frame contains that
column — filled entirely with empty strings whenever no candidate (exact
name or positional placeholder) exists in the source — and for every
required inventory column the output frame contains that column, filled
entirely with empty strings whenever no source column renames onto it. -/
theorem reconciler_never_raises_fills_empty (src : SourceFrame) (n : Nat) :
    (∀ target cands, (target, cands) ∈ customerColumnMapping →
      (∃ vals, (target, vals) ∈ reconcileCustomer src n) ∧
      ((∀ c ∈ cands, getCol src c = none) →
        (target, List.replicate n "") ∈ reconcileCustomer src n)) ∧
    (∀ c ∈ requiredColumns,
      (∃ cells, (c, cells) ∈ reconcileInventory src n) ∧
      ((∀ p ∈ renameCols src, p.1 ≠ c) →
        (c, List.replicate n (Cell.str "")) ∈ reconcileInventory src n)) := by
  constructor
  · intro target cands hmem
    constructor
    · refine ⟨(resolveTarget src n (target, cands)).2, ?_⟩
      have hfst : (resolveTarget src n (target, cands)).1 = target :=
        resolveTarget_fst src n (target, cands)
      have heta : (target, (resolveTarget src n (target, cands)).2) =
          resolveTarget src n (target, cands) := Prod.ext hfst.symm rfl
      rw [heta]
      exact List.mem_map_of_mem _ hmem
    · intro hnone
      have h2 := resolveTarget_none src n (target, cands) hnone
      rw [← h2]
      exact List.mem_map_of_mem _ hmem
  · intro c hmem
    constructor
    · refine ⟨(fillRequired (renameCols src) n c).2, ?_⟩
      have hfst : (fillRequired (renameCols src) n c).1 = c :=
        fillRequired_fst (renameCols src) n c
      have heta : (c, (fillRequired (renameCols src) n c).2) =
          fillRequired (renameCols src) n c := Prod.ext hfst.symm rfl
      rw [heta]
      exact List.mem_map_of_mem _ hmem
    · intro hnone
      have h2 := fillRequired_none (renameCols src) n c hnone
      rw [← h2]
      exact List.mem_map_of_mem _ hmem

/-- A source frame whose single column matches no canonical customer
candidate and renames onto no required inventory column. -/
def demoFrame : SourceFrame := [("其他欄位", [Cell.str "x"])]

theorem reconciler_never_raises_fills_empty_witness :
    (("客戶代碼", ["客戶代碼", "Unnamed: 0"]) ∈ customerColumnMapping ∧
     (∀ c ∈ (["客戶代碼", "Unnamed: 0"] : List String), getCol demoFrame c = none) ∧
     "remark" ∈ requiredColumns ∧
     (∀ p ∈ renameCols demoFrame, p.1 ≠ "remark")) ∧
    ("客戶代碼", List.replicate 1 "") ∈ reconcileCustomer demoFrame 1 ∧
    ("remark", List.replicate 1 (Cell.str "")) ∈ reconcileInventory demoFrame 1 :=
  ⟨⟨by decide, by decide, by decide, by decide⟩,
   ((reconciler_never_raises_fills_empty demoFrame 1).1 "客戶代碼"
     ["客戶代碼", "Unnamed: 0"] (by decide)).2 (by decide),
   ((reconciler_never_raises_fills_empty demoFrame 1).2 "remark" (by decide)).2
     (by decide)⟩

end Reconcile
